import Mathlib

/-!
Shallow embedding of the recoverable syntax-diagnostics engine of
`analyzers/syntax.py` (helpers, the parso tree-walk engine, the
mask-and-reparse fallback engine, the public facade) and of the
aggregator `src/ai_code_reviewer/aggregator.py`, together with proofs
about the embedded definitions.

Modelling conventions:
* Python strings are Lean `String`s; Python `int` is Lean `Int`;
  Python `Optional[T]` is `Option T`.
* Python truthiness is made explicit: `x or d` on integers maps
  `none`/`0` to `d`, on strings maps `none`/`""` to `d`.
* The external single-error parser `ast.parse("\n".join(masked))` is a
  parameter `parse : List String → ParseOutcome`: it may succeed, raise
  a `SyntaxError` (carrying the same fields the code reads off the
  exception object), or raise some other exception (e.g. `MemoryError`,
  which `ast.parse` produces on pathological input); the code catches
  only `SyntaxError`.
* The external tolerant parser `parso.parse` is a parameter delivering
  either a tree of `PNode`s or an exception.
* Raising an exception is modelled by `Except String`: `.error e` means
  the Python call raises `e` to its caller.
-/

set_option maxRecDepth 10000

/-! ### Python string primitives -/

/-- Python `hay.find(needle)` as an `Option`: index of the first
occurrence of `needle` in `hay`, or `none` where Python returns `-1`. -/
def pyFind (hay needle : List Char) : Option Nat :=
  (List.range (hay.length + 1)).find? (fun i => needle.isPrefixOf (hay.drop i))

/-- Python `needle in hay` (substring containment). -/
def pyIn (needle hay : String) : Bool :=
  (pyFind hay.toList needle.toList).isSome

/-- Python `s.startswith(p)`. -/
def pyStartswith (s p : String) : Bool :=
  p.toList.isPrefixOf s.toList

/-- Python `s.lower()` (ASCII case folding, which is all the engine's
rule strings need). -/
def pyLower (s : String) : String :=
  String.mk (s.toList.map Char.toLower)

/-- Whitespace characters stripped by Python `str.strip()` /
split on by `str.split()` (the ASCII ones). -/
def pyIsSpace (c : Char) : Bool :=
  c = ' ' || c = '\t' || c = '\n' || c = '\r' || c = '\x0b' || c = '\x0c'

/-- Python `s.strip()`. -/
def pyStrip (s : String) : String :=
  String.mk (((s.toList.dropWhile pyIsSpace).reverse.dropWhile pyIsSpace).reverse)

/-- Helper for `pySplitWs`: accumulates the current word (reversed). -/
def pySplitWsGo : List Char → List Char → List String
  | [], cur => if cur.isEmpty then [] else [String.mk cur.reverse]
  | c :: cs, cur =>
    if pyIsSpace c then
      if cur.isEmpty then pySplitWsGo cs []
      else String.mk cur.reverse :: pySplitWsGo cs []
    else pySplitWsGo cs (c :: cur)

/-- Python `s.split()` (split on whitespace runs, no empty tokens). -/
def pySplitWs (s : String) : List String :=
  pySplitWsGo s.toList []

/-- Helper for `pySplitlines`: line splitting on `\n`, `\r\n`, `\r`. -/
def pySplitlinesGo : List Char → List Char → List String
  | [], cur => if cur.isEmpty then [] else [String.mk cur.reverse]
  | '\n' :: cs, cur => String.mk cur.reverse :: pySplitlinesGo cs []
  | '\r' :: '\n' :: cs, cur => String.mk cur.reverse :: pySplitlinesGo cs []
  | '\r' :: cs, cur => String.mk cur.reverse :: pySplitlinesGo cs []
  | c :: cs, cur => pySplitlinesGo cs (c :: cur)

/-- Python `s.splitlines()` (restricted to the `\n`, `\r\n`, `\r`
terminators; `""` yields `[]`, a trailing terminator adds no line). -/
def pySplitlines (s : String) : List String :=
  pySplitlinesGo s.toList []

/-- Python `x or d` for `Optional[int] x`: `None` and `0` are falsy. -/
def pyOrInt (x : Option Int) (d : Int) : Int :=
  match x with
  | none => d
  | some v => if v = 0 then d else v

/-- Python `x or d` for `Optional[str] x`: `None` and `""` are falsy. -/
def pyOrStr (x : Option String) (d : String) : String :=
  match x with
  | none => d
  | some v => if v = "" then d else v

/-! ### Data model: Finding and Report

A `Finding` is the dict built by `_finding`; the nested
`location = {start: {line, column}, end: {line, column}}` is flattened
into the four fields `startLine`, `startColumn`, `endLine`, `endColumn`. -/

structure Finding where
  id : String
  analyzer : String
  category : String
  rule_id : String
  severity : String
  message : String
  filename : String
  startLine : Int
  startColumn : Int
  endLine : Int
  endColumn : Int
  snippet : String
  caret : String
  suggestion : String
deriving Repr, DecidableEq, Inhabited

/-- Report dict `{ok, findings, filename}` returned by both engines. -/
structure Report where
  ok : Bool
  findings : List Finding
  filename : String
deriving Repr, DecidableEq, Inhabited

/-! ### Helpers of `analyzers/syntax.py` -/

/-- Embedding of `_safe_get_line`: the 1-indexed line of `source`, or
`""` when `line` is out of `[1, len(lines)]`. -/
def _safe_get_line (source : String) (line : Int) : String :=
  let lines := pySplitlines source
  if 1 ≤ line ∧ line ≤ (lines.length : Int) then
    lines.getD ((line - 1).toNat) ""
  else ""

/-- Embedding of `_make_caret`. The source first replaces a falsy or
`< 1` column by `1` (`if not col or col < 1: col = 1`), then uses the
adjusted column in the length test. -/
def _make_caret (col end_col : Option Int) : String :=
  let c : Int :=
    match col with
    | none => 1
    | some v => if v = 0 ∨ v < 1 then 1 else v
  let len : Int :=
    match end_col with
    | none => 1
    | some e => if e > c then e - c else 1
  String.mk (List.replicate (c - 1).toNat ' ') ++
    String.mk (List.replicate len.toNat '^')

/-- First whitespace-delimited token of the snippet, lower-cased:
`(snippet.strip().split()[:1] or [""])[0].lower()`. -/
def firstTokenLower (snippet : String) : String :=
  pyLower ((pySplitWs (pyStrip snippet)).headD "")

/-- Keyword set used by the missing-colon heuristic of `_suggest_fix`. -/
def blockHeaders : List String :=
  ["def", "if", "for", "while", "elif", "else", "try", "except",
   "finally", "with", "class"]

/-- Embedding of `_suggest_fix`: ordered pattern rules over the
lower-cased message and the snippet; the first match wins. -/
def _suggest_fix (msg snippet : String) : String :=
  let m := pyLower msg
  let first := firstTokenLower snippet
  if pyIn "eol while scanning string literal" m || pyIn "unterminated string" m then
    "Close the string with matching quotes."
  else if ["\x27", "\"", "\"\"\"", "\x27\x27\x27"].contains (pyStrip snippet) then
    "You started a string but didn’t close it. Add the matching quote."
  else if pyIn "inconsistent use of tabs and spaces" m then
    "Do not mix tabs and spaces. Use only spaces (recommended, 4 per indent)."
  else if pyIn "indentationerror" m || pyStartswith m "expected an indented block" then
    "Fix indentation (indent the block consistently with spaces)."
  else if pyIn "unexpected eof while parsing" m || pyIn "unexpected end of file" m then
    "Complete the unfinished block or expression."
  else if pyIn "cannot assign to" m && pyIn "literal" m then
    "Left side of \x27=\x27 must be a variable; use \x27==\x27 for comparison if intended."
  else if pyIn "duplicate argument" m && pyIn "function definition" m then
    "Each function parameter must have a unique name."
  else if pyIn "\x27return\x27 outside function" m then
    "Move \x27return\x27 inside a function definition."
  else if pyIn "\x27break\x27 outside loop" m || pyIn "\x27continue\x27 not properly in loop" m then
    "Use \x27break\x27 or \x27continue\x27 only inside a loop."
  else if pyIn "f-string" m && pyIn "unmatched" m then
    "Double braces \x27\x7b\x7b \x7d\x7d\x27 if you want literal \x27\x7b\x27 characters inside an f-string."
  else if pyIn "invalid character" m then
    "Replace non-standard characters (like smart quotes or dashes) with plain ASCII ones."
  else if pyStrip snippet == ")" then
    "This closing parenthesis has no matching opening \x27(\x27 before it."
  else if pyIn "invalid syntax" m && pyIn "(" snippet && !pyIn ")" snippet then
    "Check your parentheses. Make sure each \x27(\x27 has a matching \x27)\x27."
  else if pyIn "invalid syntax" m && pyIn "=" snippet && !pyIn "==" snippet &&
      (pyIn "if" snippet || pyIn "while" snippet) then
    "Use \x27==\x27 for comparison inside conditions, not \x27=\x27."
  else if pyIn "expected \x27:\x27" m || pyIn "missing \x27:\x27" m ||
      (pyIn "invalid syntax" m && blockHeaders.contains first) then
    "Add a colon (:) at the end of the statement header."
  else ""

/-- Embedding of `_finding`, the Finding Builder. `frag or snippet`
uses Python truthiness (an empty `frag` falls back to the snippet);
`_suggest_fix(...) or ""` is the identity since the classifier already
returns `""` on no match. -/
def _finding (source : String) (filename : Option String)
    (category message : String) (line col : Int)
    (end_line end_col : Option Int) (idx : Int)
    (frag : Option String) : Finding :=
  let snippet := _safe_get_line source line
  { id := "SYN001-" ++ toString line ++ "-" ++ toString col ++ "-" ++ toString idx
    analyzer := "syntax"
    category := pyOrStr (some category) "SyntaxError"
    rule_id := "PY-SYNTAX"
    severity := "HIGH"
    message := message
    filename := pyOrStr filename "<string>"
    startLine := line
    startColumn := if col = 0 then 1 else col
    endLine := match end_line with | some v => v | none => line
    endColumn := match end_col with | some v => v | none => if col = 0 then 1 else col
    snippet := snippet
    caret := _make_caret (some col) end_col
    suggestion := _suggest_fix message (pyOrStr frag snippet) }

/-- Deduplication key `(filename, category, message, start_line,
start_column)` read off a Finding by `_dedupe_findings`. -/
def findingKey (f : Finding) : String × String × String × Int × Int :=
  (f.filename, f.category, f.message, f.startLine, f.startColumn)

/-- Helper for `_dedupe_findings`: single pass with the `seen` set of
keys and the accumulated output (in order). -/
def dedupeGo : List Finding → List (String × String × String × Int × Int) →
    List Finding
  | [], _ => []
  | f :: fs, seen =>
    if findingKey f ∈ seen then dedupeGo fs seen
    else f :: dedupeGo fs (findingKey f :: seen)

/-- Embedding of `_dedupe_findings`: keep the first Finding for each
key, preserving order. -/
def _dedupe_findings (findings : List Finding) : List Finding :=
  dedupeGo findings []

/-! ### Engine A: parso tree walk (`_check_with_parso`)

A parso node carries: whether it is an `ErrorLeaf`/`ErrorNode`, its
start/end positions when `get_start_pos`/`get_end_pos` exist (the code
substitutes `(1,1,1,1)` on `AttributeError`, modelled by `none`), the
text returned by `get_code` (nodes without `get_code` yield `""`), and
its children. -/

inductive PNode where
  | mk (isError : Bool) (pos : Option ((Int × Int) × (Int × Int)))
       (rawCode : String) (children : List PNode)
deriving Repr

/-- Python `repr(frag)` is modelled as wrapping in single quotes; no
theorem depends on the exact escaping Python would apply. -/
def pyRepr (s : String) : String := "\x27" ++ s ++ "\x27"

mutual

/-- Embedding of the inner `walk` of `_check_with_parso` on one node:
returns the findings emitted at this node and below, threading the
`idx_holder` counter. -/
def walkNode (code : String) (filename : Option String) :
    PNode → Int → List Finding × Int
  | PNode.mk isError pos rawCode children, i =>
    let (fs, i1) :=
      if isError then
        let (line, col, end_line, end_col) :=
          match pos with
          | some ((l, c), (el, ec)) => (l, c, el, ec)
          | none => (1, 1, 1, 1)
        let frag := pyStrip rawCode
        let col :=
          if col = 1 ∧ frag ≠ "" then
            match pyFind (_safe_get_line code line).toList frag.toList with
            | some j => (j : Int) + 1
            | none => col
          else col
        let msg := "invalid syntax" ++
          (if frag ≠ "" then " near: " ++ pyRepr frag else "")
        ([_finding code filename "SyntaxError" msg line col
            (some end_line) (some end_col) i (some frag)], i + 1)
      else ([], i)
    let (fs2, i2) := walkChildren code filename children i1
    (fs ++ fs2, i2)

/-- Embedding of the child recursion of `walk`. -/
def walkChildren (code : String) (filename : Option String) :
    List PNode → Int → List Finding × Int
  | [], i => ([], i)
  | n :: ns, i =>
    let (fs, i1) := walkNode code filename n i
    let (fs2, i2) := walkChildren code filename ns i1
    (fs ++ fs2, i2)

end

/-- Embedding of `_check_with_parso`, given the tree `parso.parse`
returned: walk from the root with counter 1, dedupe, build the report. -/
def _check_with_parso (tree : PNode) (code : String)
    (filename : Option String) : Report :=
  let findings := _dedupe_findings (walkNode code filename tree 1).1
  { ok := findings.isEmpty
    findings := findings
    filename := pyOrStr filename "<string>" }

/-! ### Engine B: mask and re-parse (`_check_with_masking`) -/

/-- Outcome of one call `ast.parse("\n".join(masked))`, abstracted over
the joined line list: success, a raised `SyntaxError` with the fields
the handler reads (`__class__.__name__`, `msg`, `lineno`, `offset`,
`end_lineno`, `end_offset`), or a raised non-`SyntaxError` exception. -/
inductive ParseOutcome where
  | ok : ParseOutcome
  | synErr (category msg : String) (lineno offset end_lineno end_offset : Option Int) :
      ParseOutcome
  | exn (e : String) : ParseOutcome
deriving Repr, DecidableEq

/-- Leading run of spaces and tabs of a line, as collected by the
`for ch in original` loop before masking. -/
def leadingWS (s : String) : String :=
  String.mk (s.toList.takeWhile (fun c => c = ' ' || c = '\t'))

/-- Embedding of `masked[line - 1] = prefix + "pass"`: replace the
failing line (1-indexed, already checked in range by the caller) with
its leading whitespace followed by `pass`. -/
def maskAt (masked : List String) (line : Int) : List String :=
  masked.set ((line - 1).toNat)
    (leadingWS (masked.getD ((line - 1).toNat) "") ++ "pass")

/-- Result of the `while True` loop of `_check_with_masking`: either
the loop ended (clean parse, repeated line, or out-of-range line) with
the accumulated findings, or a non-`SyntaxError` exception `e`
propagated out of the loop. -/
inductive LoopResult where
  | done (findings : List Finding) : LoopResult
  | raised (e : String) : LoopResult
deriving Repr, DecidableEq

/-- Embedding of the `while True` loop of `_check_with_masking` as a
fuel-indexed recursion; one unit of fuel is one `ast.parse` attempt, and
`none` means the fuel ran out (`maskLoop_total` below shows fuel
`masked.length + 1` never runs out, matching the unbounded source loop).
The state is the scratch buffer `masked`, the guard set `seen_lines`,
the emission counter `idx` and the accumulated `findings`. -/
def maskLoop (parse : List String → ParseOutcome) (code : String)
    (filename : Option String) :
    Nat → List String → Finset Int → Int → List Finding → Option LoopResult
  | 0, _, _, _, _ => none
  | fuel + 1, masked, seen_lines, idx, findings =>
    match parse masked with
    | .ok => some (.done findings)
    | .exn e => some (.raised e)
    | .synErr cat msg lineno offset _end_lineno _end_offset =>
      let line := pyOrInt lineno 1
      let col := pyOrInt offset 1
      let findings := findings ++
        [_finding code filename cat msg line col _end_lineno _end_offset idx none]
      let idx := idx + 1
      if line ∈ seen_lines then some (.done findings)
      else
        let seen_lines := insert line seen_lines
        if 1 ≤ line ∧ line ≤ (masked.length : Int) then
          maskLoop parse code filename fuel (maskAt masked line) seen_lines idx findings
        else some (.done findings)

/-- Embedding of `_check_with_masking`: run the loop from the split
lines with empty guard set and counter 1, dedupe, build the report.
`.error` models an exception propagating to the caller (the code
catches only `SyntaxError`). The fuel branch is unreachable by
`maskLoop_total`. -/
def _check_with_masking (parse : List String → ParseOutcome)
    (code : String) (filename : Option String) : Except String Report :=
  match maskLoop parse code filename ((pySplitlines code).length + 1)
      (pySplitlines code) ∅ 1 [] with
  | some (.done fs) =>
    let findings := _dedupe_findings fs
    .ok { ok := findings.isEmpty
          findings := findings
          filename := pyOrStr filename "<string>" }
  | some (.raised e) => .error e
  | none => .error "<fuel exhausted: unreachable>"

/-! ### Public facade: check_python_syntax

The dynamic parso dependency is abstracted by `parsoAvailable` (did
`import parso` succeed?) and `parsoOutcome` (the tree `parso.parse`
produced, or the exception the parso engine raised — the
`except Exception` branch of the source falls back to masking on any
such exception). -/

def check_python_syntax (parsoAvailable : Bool)
    (parsoOutcome : Except String PNode)
    (parse : List String → ParseOutcome)
    (code : String) (filename : Option String) : Except String Report :=
  if parsoAvailable = false then _check_with_masking parse code filename
  else
    match parsoOutcome with
    | .ok tree => .ok (_check_with_parso tree code filename)
    | .error _ => _check_with_masking parse code filename

/-! ### Aggregator (`src/ai_code_reviewer/aggregator.py`)

`run_all_analyzers` calls, in order: the syntax engine
( check_python_syntax ), the security analyzer, the style analyzer and
— when the import of `PerformanceAnalyzer` succeeded — the performance
analyzer, each exactly once and unconditionally. The downstream
analyzers are abstracted as functions of the source code; `calls`
records the analyzer invocations in program order. -/

structure AggRun (α β γ : Type) where
  calls : List String
  syntax_report : Report
  security_report : α
  style_report : β
  performance_report : Option γ

def run_all_analyzers {α β γ : Type} (syntaxEngine : String → Report)
    (securityEngine : String → α) (styleEngine : String → β)
    (perfEngine : String → γ) (performanceAvailable : Bool)
    (source_code : String) : AggRun α β γ :=
  let syntax_report := syntaxEngine source_code
  let calls := ["syntax"]
  let security_report := securityEngine source_code
  let calls := calls ++ ["security"]
  let style_report := styleEngine source_code
  let calls := calls ++ ["style"]
  if performanceAvailable then
    { calls := calls ++ ["performance"]
      syntax_report := syntax_report
      security_report := security_report
      style_report := style_report
      performance_report := some (perfEngine source_code) }
  else
    { calls := calls
      syntax_report := syntax_report
      security_report := security_report
      style_report := style_report
      performance_report := none }

/-! ### Frame lemmas for masking (claim C10) -/

/-- Masking preserves the number of lines of the scratch buffer. -/
theorem maskAt_length (masked : List String) (line : Int) :
    (maskAt masked line).length = masked.length := by
  simp [maskAt]

/-- C10: when the mask-and-reparse loop masks an in-range line `L`, only
entry `L-1` of the scratch buffer changes — it becomes the line's
leading spaces/tabs followed by `pass` — every other entry and the
total number of lines are unchanged. -/
theorem maskAt_frame (masked : List String) (line : Int)
    (h1 : 1 ≤ line) (h2 : line ≤ (masked.length : Int)) :
    (maskAt masked line).length = masked.length ∧
    (maskAt masked line).getD ((line - 1).toNat) "" =
      leadingWS (masked.getD ((line - 1).toNat) "") ++ "pass" ∧
    ∀ j : Nat, j ≠ (line - 1).toNat →
      (maskAt masked line).getD j "" = masked.getD j "" := by
  refine ⟨maskAt_length masked line, ?_, ?_⟩
  · have hlt : line.toNat - 1 < masked.length := by omega
    simp [maskAt, List.getD, List.getElem?_set_self',
      List.getElem?_eq_getElem hlt, Function.const]
  · intro j hj
    have hij : line.toNat - 1 ≠ j := by omega
    simp [maskAt, List.getD, List.getElem?_set_ne hij]

/-- Witness for `maskAt_frame` at a concrete buffer and line. -/
theorem maskAt_frame_witness :
    (maskAt ["x = (", "  y"] 1).length = 2 ∧
    (maskAt ["x = (", "  y"] 1).getD 0 "" = "pass" ∧
    (maskAt ["x = (", "  y"] 1).getD 1 "" = "  y" := by
  obtain ⟨h1, h2, h3⟩ :=
    maskAt_frame ["x = (", "  y"] 1 (by decide) (by decide)
  refine ⟨by rw [h1]; rfl, ?_, ?_⟩
  · rw [show ((1 : Int) - 1).toNat = 0 from rfl] at h2
    rw [h2]; rfl
  · rw [h3 1 (by decide)]; rfl

/-! ### Termination of the mask-and-reparse loop (claim C3) -/

/-- Fuel-sufficiency invariant: as long as every already-masked line is
in range of the (length-stable) scratch buffer and the fuel exceeds the
number of not-yet-masked lines, the loop completes. Each recursive call
masks a line not previously masked, growing the guard set. -/
theorem maskLoop_total (parse : List String → ParseOutcome) (code : String)
    (fn : Option String) :
    ∀ (fuel : Nat) (masked : List String) (seen : Finset Int) (idx : Int)
      (findings : List Finding),
      (∀ x ∈ seen, 1 ≤ x ∧ x ≤ (masked.length : Int)) →
      masked.length + 1 ≤ fuel + seen.card →
      (maskLoop parse code fn fuel masked seen idx findings).isSome := by
  intro fuel
  induction fuel with
  | zero =>
    intro masked seen idx findings hseen hfuel
    exfalso
    have hsub : seen ⊆ Finset.Icc (1 : Int) (masked.length : Int) := by
      intro x hx
      simpa [Finset.mem_Icc] using hseen x hx
    have hcard := Finset.card_le_card hsub
    rw [Int.card_Icc] at hcard
    omega
  | succ fuel ih =>
    intro masked seen idx findings hseen hfuel
    rw [maskLoop]
    cases hp : parse masked with
    | ok => simp
    | exn e => simp
    | synErr cat msg lineno offset el eo =>
      dsimp only
      by_cases hmem : pyOrInt lineno 1 ∈ seen
      · simp [hmem]
      · simp only [hmem, if_false, ite_false]
        by_cases hrange : 1 ≤ pyOrInt lineno 1 ∧
            pyOrInt lineno 1 ≤ (masked.length : Int)
        · simp only [hrange, if_true, ite_true]
          apply ih
          · intro x hx
            rw [Finset.mem_insert] at hx
            rw [maskAt_length]
            rcases hx with hx | hx
            · exact hx ▸ hrange
            · exact hseen x hx
          · rw [maskAt_length, Finset.card_insert_of_not_mem hmem]
            omega
        · simp [hrange]

/-- C3: for every input and every behaviour of the single-error parser,
the mask-and-reparse loop of `_check_with_masking` terminates within
`N + 1` parse attempts on an `N`-line input (one unit of fuel is one
parse attempt): each iteration either ends the loop — clean parse,
non-`SyntaxError` exception, repeated failing line, or out-of-range
failing line — or masks a line number not previously masked, and the
guard set can only grow to the number of lines. -/
theorem masking_loop_fuel_bound (parse : List String → ParseOutcome)
    (code : String) (filename : Option String) :
    (maskLoop parse code filename ((pySplitlines code).length + 1)
      (pySplitlines code) ∅ 1 []).isSome := by
  apply maskLoop_total
  · simp
  · simp

/-! ### Invariants carried by the loop's findings -/

/-- Deduplication only ever drops elements: the output is a sublist of
the input. -/
theorem dedupeGo_sublist :
    ∀ (l : List Finding) (seen : List (String × String × String × Int × Int)),
      (dedupeGo l seen).Sublist l := by
  intro l
  induction l with
  | nil => intro seen; simp [dedupeGo]
  | cons f fs ih =>
    intro seen
    rw [dedupeGo]
    by_cases h : findingKey f ∈ seen
    · simp only [h, if_true, ite_true]
      exact (ih seen).trans (List.sublist_cons_self f fs)
    · simp only [h, if_false, ite_false]
      exact (ih (findingKey f :: seen)).cons₂ f

/-- Membership form of `dedupeGo_sublist` for `_dedupe_findings`. -/
theorem mem_of_mem_dedupe {f : Finding} {l : List Finding}
    (h : f ∈ _dedupe_findings l) : f ∈ l :=
  (dedupeGo_sublist l []).mem h

/-- Every Finding accumulated by the loop satisfies `P`, provided the
initial findings do and `P` holds of every Finding the loop can build
from a `SyntaxError` outcome on a scratch buffer of the original line
count. -/
theorem maskLoop_findings (parse : List String → ParseOutcome)
    (code : String) (fn : Option String) (P : Finding → Prop)
    (hP : ∀ (masked : List String) (cat msg : String)
        (lineno offset el eo : Option Int) (idx : Int),
        masked.length = (pySplitlines code).length →
        parse masked = .synErr cat msg lineno offset el eo →
        P (_finding code fn cat msg (pyOrInt lineno 1) (pyOrInt offset 1)
            el eo idx none)) :
    ∀ (fuel : Nat) (masked : List String) (seen : Finset Int) (idx : Int)
      (findings : List Finding) (res : List Finding),
      masked.length = (pySplitlines code).length →
      (∀ f ∈ findings, P f) →
      maskLoop parse code fn fuel masked seen idx findings = some (.done res) →
      ∀ f ∈ res, P f := by
  intro fuel
  induction fuel with
  | zero =>
    intro masked seen idx findings res _ _ hrun
    rw [maskLoop] at hrun
    exact absurd hrun (by simp)
  | succ fuel ih =>
    intro masked seen idx findings res hlen hfind hrun
    rw [maskLoop] at hrun
    cases hp : parse masked with
    | ok =>
      rw [hp] at hrun
      simp only [Option.some.injEq, LoopResult.done.injEq] at hrun
      exact hrun ▸ hfind
    | exn e =>
      rw [hp] at hrun
      simp at hrun
    | synErr cat msg lineno offset el eo =>
      rw [hp] at hrun
      dsimp only at hrun
      have hnew : ∀ f ∈ findings ++
          [_finding code fn cat msg (pyOrInt lineno 1) (pyOrInt offset 1)
            el eo idx none], P f := by
        intro f hf
        rcases List.mem_append.mp hf with hf | hf
        · exact hfind f hf
        · rw [List.mem_singleton] at hf
          exact hf ▸ hP masked cat msg lineno offset el eo idx hlen hp
      by_cases hmem : pyOrInt lineno 1 ∈ seen
      · rw [if_pos hmem] at hrun
        simp only [Option.some.injEq, LoopResult.done.injEq] at hrun
        exact hrun ▸ hnew
      · rw [if_neg hmem] at hrun
        by_cases hrange : 1 ≤ pyOrInt lineno 1 ∧
            pyOrInt lineno 1 ≤ (masked.length : Int)
        · rw [if_pos hrange] at hrun
          exact ih (maskAt masked (pyOrInt lineno 1))
            (insert (pyOrInt lineno 1) seen) (idx + 1) _ res
            (by rw [maskAt_length]; exact hlen) hnew hrun
        · rw [if_neg hrange] at hrun
          simp only [Option.some.injEq, LoopResult.done.injEq] at hrun
          exact hrun ▸ hnew

/-- When the parser can only succeed or raise `SyntaxError`, the loop
never propagates an exception. -/
theorem maskLoop_no_raise (parse : List String → ParseOutcome)
    (code : String) (fn : Option String)
    (hexn : ∀ (masked : List String) (e : String), parse masked ≠ .exn e) :
    ∀ (fuel : Nat) (masked : List String) (seen : Finset Int) (idx : Int)
      (findings : List Finding) (e : String),
      maskLoop parse code fn fuel masked seen idx findings ≠
        some (.raised e) := by
  intro fuel
  induction fuel with
  | zero =>
    intro masked seen idx findings e hrun
    rw [maskLoop] at hrun
    simp at hrun
  | succ fuel ih =>
    intro masked seen idx findings e hrun
    rw [maskLoop] at hrun
    cases hp : parse masked with
    | ok => rw [hp] at hrun; simp at hrun
    | exn e2 => exact hexn masked e2 hp
    | synErr cat msg lineno offset el eo =>
      rw [hp] at hrun
      dsimp only at hrun
      by_cases hmem : pyOrInt lineno 1 ∈ seen
      · rw [if_pos hmem] at hrun; simp at hrun
      · rw [if_neg hmem] at hrun
        by_cases hrange : 1 ≤ pyOrInt lineno 1 ∧
            pyOrInt lineno 1 ≤ (masked.length : Int)
        · rw [if_pos hrange] at hrun
          exact ih _ _ _ _ e hrun
        · rw [if_neg hrange] at hrun; simp at hrun

/-! ### Concrete parser behaviours used by witnesses and counterexamples -/

/-- Single-error parser that fails once at line 1, column 1 and accepts
the masked buffer (and the empty buffer): the behaviour of `ast.parse`
on the one-line input `"x +"`. -/
def demoParse : List String → ParseOutcome := fun ls =>
  if ls = [] ∨ ls = ["pass"] then .ok
  else .synErr "SyntaxError" "invalid syntax" (some 1) (some 1) (some 1) (some 2)

/-- Parser behaviour where `ast.parse` raises a non-`SyntaxError`
exception — observed in CPython: `ast.parse("-" * 1000000 + "1")`
raises `MemoryError`, which the engine's `except SyntaxError` handler
does not catch. -/
def memErrParse : List String → ParseOutcome := fun _ => .exn "MemoryError"

/-- `demoParse` never raises a non-`SyntaxError` exception. -/
theorem demoParse_no_exn :
    ∀ (masked : List String) (e : String), demoParse masked ≠ .exn e := by
  intro masked e
  unfold demoParse
  split_ifs <;> simp

/-- `demoParse` only reports line 1, which is in range of any non-empty
buffer it rejects. -/
theorem demoParse_line_in_range :
    ∀ (masked : List String) (cat msg : String)
      (lineno offset el eo : Option Int),
      demoParse masked = .synErr cat msg lineno offset el eo →
      1 ≤ pyOrInt lineno 1 ∧ pyOrInt lineno 1 ≤ (masked.length : Int) := by
  intro masked cat msg lineno offset el eo h
  unfold demoParse at h
  by_cases hc : masked = [] ∨ masked = ["pass"]
  · rw [if_pos hc] at h; exact absurd h (by simp)
  · rw [if_neg hc] at h
    simp only [ParseOutcome.synErr.injEq] at h
    obtain ⟨-, -, hl, -, -, -⟩ := h
    have hne : masked ≠ [] := fun hnil => hc (Or.inl hnil)
    have hlen : masked.length ≠ 0 := fun h0 => hne (List.length_eq_zero.mp h0)
    subst hl
    refine ⟨le_refl 1, ?_⟩
    simp [pyOrInt]
    omega

/-! ### Claim C1: the Selector can propagate an internal exception -/

/-- C1 counterexample: with parso unavailable, a non-`SyntaxError`
exception raised by the underlying parser inside the mask-and-reparse
loop propagates out of check_python_syntax instead of being converted
into a best-effort Report — the source catches only `SyntaxError` in
the loop and wraps no handler around the fallback engine. -/
theorem selector_propagates_exception :
    check_python_syntax false (.error "ImportError") memErrParse
      "-1000000 * 1" none = .error "MemoryError" := rfl

/-- C1 amended: exceptions from the parso engine are always caught (the
facade falls back to masking), and the facade returns a Report whenever
the underlying single-error parser raises nothing but `SyntaxError`;
only a non-`SyntaxError` exception inside the mask-and-reparse loop can
propagate. -/
theorem selector_total_for_syntax_only_parse (pa : Bool)
    (po : Except String PNode) (parse : List String → ParseOutcome)
    (code : String) (fn : Option String)
    (hexn : ∀ (masked : List String) (e : String), parse masked ≠ .exn e) :
    ∃ r, check_python_syntax pa po parse code fn = .ok r := by
  have hmask : ∃ r, _check_with_masking parse code fn = .ok r := by
    unfold _check_with_masking
    cases hm : maskLoop parse code fn ((pySplitlines code).length + 1)
        (pySplitlines code) ∅ 1 [] with
    | none =>
      have htot := maskLoop_total parse code fn
        ((pySplitlines code).length + 1) (pySplitlines code) ∅ 1 []
        (by simp) (by simp)
      rw [hm] at htot
      simp at htot
    | some res =>
      cases res with
      | done fs => exact ⟨_, rfl⟩
      | raised e =>
        exact absurd hm (maskLoop_no_raise parse code fn hexn _ _ _ _ _ e)
  unfold check_python_syntax
  by_cases hpa : pa = false
  · rw [if_pos hpa]; exact hmask
  · rw [if_neg hpa]
    cases po with
    | ok tree => exact ⟨_, rfl⟩
    | error e => exact hmask

/-- Witness for `selector_total_for_syntax_only_parse` at a concrete
well-behaved parser and input. -/
theorem selector_total_for_syntax_only_parse_witness :
    ∃ r, check_python_syntax false (.error "ImportError") demoParse
      "x +" none = .ok r :=
  selector_total_for_syntax_only_parse false (.error "ImportError")
    demoParse "x +" none demoParse_no_exn

/-! ### Claim C2: findings are anchored in the original source -/

/-- C2: whenever the underlying single-error parser reports error lines
inside the line range of the buffer it parses (as CPython's `ast.parse`
does), every Finding of a mask-and-reparse Report carries a 1-indexed
line number of the original input, and its snippet is that line of the
original, unmodified source — masking preserves the line count, and the
Finding Builder is always invoked on the original `code`, never on the
masked buffer. -/
theorem masking_reports_original_lines (parse : List String → ParseOutcome)
    (code : String) (fn : Option String)
    (Hparse : ∀ (masked : List String) (cat msg : String)
      (lineno offset el eo : Option Int),
      parse masked = .synErr cat msg lineno offset el eo →
      1 ≤ pyOrInt lineno 1 ∧ pyOrInt lineno 1 ≤ (masked.length : Int))
    (r : Report) (hr : _check_with_masking parse code fn = .ok r) :
    ∀ f ∈ r.findings,
      (1 ≤ f.startLine ∧ f.startLine ≤ ((pySplitlines code).length : Int)) ∧
      f.snippet = (pySplitlines code).getD ((f.startLine - 1).toNat) "" := by
  unfold _check_with_masking at hr
  cases hm : maskLoop parse code fn ((pySplitlines code).length + 1)
      (pySplitlines code) ∅ 1 [] with
  | none => rw [hm] at hr; simp at hr
  | some res =>
    cases res with
    | raised e => rw [hm] at hr; simp at hr
    | done fs =>
      rw [hm] at hr
      simp only [Except.ok.injEq] at hr
      subst hr
      intro f hf
      have hfs : f ∈ fs := mem_of_mem_dedupe hf
      refine maskLoop_findings parse code fn
        (fun f =>
          (1 ≤ f.startLine ∧ f.startLine ≤ ((pySplitlines code).length : Int)) ∧
          f.snippet = (pySplitlines code).getD ((f.startLine - 1).toNat) "")
        ?_ _ _ _ _ _ fs rfl (by simp) hm f hfs
      intro masked cat msg lineno offset el eo idx hlen hp
      obtain ⟨h1, h2⟩ := Hparse masked cat msg lineno offset el eo hp
      rw [hlen] at h2
      dsimp only [_finding]
      refine ⟨⟨h1, h2⟩, ?_⟩
      unfold _safe_get_line
      rw [if_pos ⟨h1, h2⟩]

/-- Finding built by the mask-and-reparse run of `demoParse` on the
one-line input `"x +"`. -/
def c2demoFinding : Finding :=
  _finding "x +" none "SyntaxError" "invalid syntax" 1 1 (some 1) (some 2) 1 none

/-- Report produced by that run. -/
def c2demoReport : Report :=
  { ok := false, findings := [c2demoFinding], filename := "<string>" }

/-- Witness for `masking_reports_original_lines` at the concrete run of
`demoParse` on `"x +"`. -/
theorem masking_reports_original_lines_witness :
    (1 ≤ c2demoFinding.startLine ∧
      c2demoFinding.startLine ≤ ((pySplitlines "x +").length : Int)) ∧
    c2demoFinding.snippet =
      (pySplitlines "x +").getD ((c2demoFinding.startLine - 1).toNat) "" := by
  have h := masking_reports_original_lines demoParse "x +" none
    demoParse_line_in_range c2demoReport (by rfl)
  exact h c2demoFinding (by simp [c2demoReport])

/-! ### Claim C5: the Deduplicator keeps exactly first occurrences -/

/-- Specification-side deduplication, written from the spec's words:
keep each Finding's first occurrence (by key), dropping every later
Finding with the same key, in order. -/
def keepFirstByKey : List Finding → List Finding
  | [] => []
  | f :: fs =>
    f :: keepFirstByKey (fs.filter (fun g => findingKey g ≠ findingKey f))
termination_by l => l.length
decreasing_by
  simp only [List.length_cons]
  exact Nat.lt_succ_of_le (List.length_filter_le _ _)

/-- The seen-set pass of the source equals the spec-side first-
occurrence filter, relative to the keys already seen. -/
theorem dedupeGo_eq_keepFirst :
    ∀ (l : List Finding) (seen : List (String × String × String × Int × Int)),
      dedupeGo l seen =
        keepFirstByKey (l.filter (fun f => findingKey f ∉ seen)) := by
  intro l
  induction l with
  | nil => intro seen; simp [dedupeGo, keepFirstByKey]
  | cons f fs ih =>
    intro seen
    rw [dedupeGo]
    by_cases h : findingKey f ∈ seen
    · rw [if_pos h, ih seen, List.filter_cons]
      simp [h]
    · rw [if_neg h, ih (findingKey f :: seen), List.filter_cons]
      have hpf : decide (findingKey f ∉ seen) = true := by simp [h]
      rw [hpf]
      simp only [if_true, ite_true]
      rw [keepFirstByKey, List.filter_filter]
      congr 1
      congr 1
      apply List.filter_congr
      intro g _
      by_cases hk : findingKey g = findingKey f
      · simp [hk, List.mem_cons]
      · simp [hk, List.mem_cons]

/-- Findings surviving `dedupeGo` have keys outside `seen` and pairwise
distinct keys. -/
theorem dedupeGo_key_invariant :
    ∀ (l : List Finding) (seen : List (String × String × String × Int × Int)),
      (∀ g ∈ dedupeGo l seen, findingKey g ∉ seen) ∧
      (dedupeGo l seen).Pairwise (fun a b => findingKey a ≠ findingKey b) := by
  intro l
  induction l with
  | nil => intro seen; simp [dedupeGo]
  | cons f fs ih =>
    intro seen
    rw [dedupeGo]
    by_cases h : findingKey f ∈ seen
    · rw [if_pos h]; exact ih seen
    · rw [if_neg h]
      obtain ⟨ihmem, ihpw⟩ := ih (findingKey f :: seen)
      constructor
      · intro g hg
        rcases List.mem_cons.mp hg with rfl | hg
        · exact h
        · exact fun hmem => ihmem g hg (List.mem_cons_of_mem _ hmem)
      · refine List.Pairwise.cons ?_ ihpw
        intro g hg heq
        exact ihmem g hg (by rw [← heq]; exact List.mem_cons_self _ _)

/-- C5: `_dedupe_findings` returns exactly the first occurrence of each
key, as an order-preserving sublist; consequently the findings list of
any Report built by the mask-and-reparse engine has no two entries with
the same `(filename, category, message, start_line, start_column)`. -/
theorem dedupe_keeps_first_occurrences :
    (∀ l : List Finding, _dedupe_findings l = keepFirstByKey l) ∧
    (∀ l : List Finding, (_dedupe_findings l).Sublist l) ∧
    (∀ l : List Finding,
      (_dedupe_findings l).Pairwise (fun a b => findingKey a ≠ findingKey b)) ∧
    (∀ (parse : List String → ParseOutcome) (code : String)
        (fn : Option String) (r : Report),
      _check_with_masking parse code fn = .ok r →
      r.findings.Pairwise (fun a b => findingKey a ≠ findingKey b)) := by
  have h1 : ∀ l : List Finding, _dedupe_findings l = keepFirstByKey l := by
    intro l
    unfold _dedupe_findings
    rw [dedupeGo_eq_keepFirst]
    congr 1
    simp
  have h3 : ∀ l : List Finding,
      (_dedupe_findings l).Pairwise (fun a b => findingKey a ≠ findingKey b) :=
    fun l => (dedupeGo_key_invariant l []).2
  refine ⟨h1, fun l => dedupeGo_sublist l [], h3, ?_⟩
  intro parse code fn r hr
  unfold _check_with_masking at hr
  cases hm : maskLoop parse code fn ((pySplitlines code).length + 1)
      (pySplitlines code) ∅ 1 [] with
  | none => rw [hm] at hr; simp at hr
  | some res =>
    cases res with
    | raised e => rw [hm] at hr; simp at hr
    | done fs =>
      rw [hm] at hr
      simp only [Except.ok.injEq] at hr
      subst hr
      exact h3 fs

/-- Witness for `dedupe_keeps_first_occurrences` at a duplicated
concrete Finding and at a concrete engine run. -/
theorem dedupe_keeps_first_occurrences_witness :
    _dedupe_findings [c2demoFinding, c2demoFinding] =
      keepFirstByKey [c2demoFinding, c2demoFinding] ∧
    c2demoReport.findings.Pairwise
      (fun a b => findingKey a ≠ findingKey b) := by
  refine ⟨dedupe_keeps_first_occurrences.1 [c2demoFinding, c2demoFinding], ?_⟩
  exact dedupe_keeps_first_occurrences.2.2.2 demoParse "x +" none
    c2demoReport (by rfl)

/-! ### Claim C6: severity of every emitted Finding -/

/-- The Finding Builder hard-codes `severity = "HIGH"`. -/
theorem _finding_severity (source : String) (fn : Option String)
    (category message : String) (line col : Int) (el ec : Option Int)
    (idx : Int) (frag : Option String) :
    (_finding source fn category message line col el ec idx frag).severity =
      "HIGH" := rfl

mutual

/-- Every Finding the parso walk emits at or below a node has severity
`"HIGH"`. -/
theorem walkNode_severity (code : String) (fn : Option String) (t : PNode)
    (i : Int) : ∀ f ∈ (walkNode code fn t i).1, f.severity = "HIGH" := by
  cases t with
  | mk isError pos rawCode children =>
    cases isError with
    | false =>
      intro f hf
      rw [walkNode.eq_def] at hf
      simp only [Bool.false_eq_true, if_false, ite_false,
        List.nil_append] at hf
      exact walkChildren_severity code fn children i f hf
    | true =>
      intro f hf
      rw [walkNode.eq_def] at hf
      simp only [if_true, ite_true, List.singleton_append] at hf
      rcases List.mem_cons.mp hf with rfl | hf
      · rfl
      · exact walkChildren_severity code fn children (i + 1) f hf

/-- Every Finding the parso walk emits across a child list has severity
`"HIGH"`. -/
theorem walkChildren_severity (code : String) (fn : Option String)
    (l : List PNode) (i : Int) :
    ∀ f ∈ (walkChildren code fn l i).1, f.severity = "HIGH" := by
  cases l with
  | nil =>
    intro f hf
    rw [walkChildren.eq_def] at hf
    simp at hf
  | cons n ns =>
    intro f hf
    rw [walkChildren.eq_def] at hf
    rcases List.mem_append.mp hf with hf | hf
    · exact walkNode_severity code fn n i f hf
    · exact walkChildren_severity code fn ns (walkNode code fn n i).2 f hf

end

/-- Every Finding of a mask-and-reparse Report has severity `"HIGH"`. -/
theorem masking_severity (parse : List String → ParseOutcome)
    (code : String) (fn : Option String) (r : Report)
    (hr : _check_with_masking parse code fn = .ok r) :
    ∀ f ∈ r.findings, f.severity = "HIGH" := by
  unfold _check_with_masking at hr
  cases hm : maskLoop parse code fn ((pySplitlines code).length + 1)
      (pySplitlines code) ∅ 1 [] with
  | none => rw [hm] at hr; simp at hr
  | some res =>
    cases res with
    | raised e => rw [hm] at hr; simp at hr
    | done fs =>
      rw [hm] at hr
      simp only [Except.ok.injEq] at hr
      subst hr
      intro f hf
      refine maskLoop_findings parse code fn (fun f => f.severity = "HIGH")
        ?_ _ _ _ _ _ fs rfl (by simp) hm f (mem_of_mem_dedupe hf)
      intro masked cat msg lineno offset el eo idx _ _
      exact _finding_severity code fn cat msg (pyOrInt lineno 1)
        (pyOrInt offset 1) el eo idx none

/-- C6 counterexample: the severity constant actually emitted is the
upper-case string `"HIGH"`, not `"high"` — shown on a concrete run of
the public facade. -/
theorem severity_constant_is_uppercase :
    (( check_python_syntax false (.error "ImportError") demoParse "x +"
        none).toOption.map (fun r => r.findings.map Finding.severity)) =
      some ["HIGH"] ∧ ("HIGH" : String) ≠ "high" :=
  ⟨rfl, by decide⟩

/-- C6 amended: every Finding produced by the facade — through either
the parso tree-walk or the mask-and-reparse path — has its severity
field equal to the fixed constant `"HIGH"`. -/
theorem findings_severity_HIGH (pa : Bool) (po : Except String PNode)
    (parse : List String → ParseOutcome) (code : String)
    (fn : Option String) (r : Report)
    (hr : check_python_syntax pa po parse code fn = .ok r) :
    ∀ f ∈ r.findings, f.severity = "HIGH" := by
  unfold check_python_syntax at hr
  by_cases hpa : pa = false
  · rw [if_pos hpa] at hr
    exact masking_severity parse code fn r hr
  · rw [if_neg hpa] at hr
    cases po with
    | ok tree =>
      simp only [Except.ok.injEq] at hr
      subst hr
      intro f hf
      unfold _check_with_parso at hf
      exact walkNode_severity code fn tree 1 f (mem_of_mem_dedupe hf)
    | error e => exact masking_severity parse code fn r hr

/-- Witness for `findings_severity_HIGH` at a concrete facade run. -/
theorem findings_severity_HIGH_witness : c2demoFinding.severity = "HIGH" :=
  findings_severity_HIGH false (.error "ImportError") demoParse "x +" none
    c2demoReport (by rfl) c2demoFinding (by simp [c2demoReport])

/-! ### Claim C7: default of the start column in the Finding Builder -/

/-- C7 counterexample: a negative supplied column is NOT replaced by 1 —
`int(col or 1)` only substitutes for `0`/`None` (Python falsiness), so
`col = -2` is stored unchanged in `location.start.column`. -/
theorem finding_column_negative_passthrough :
    (_finding "x" none "SyntaxError" "m" 1 (-2) none none 1 none).startColumn
      = -2 ∧ ((-2 : Int) < 1) ∧ ((-2 : Int) ≠ 1) :=
  ⟨rfl, by decide, by decide⟩

/-- C7 amended: `location.start.column` defaults to 1 exactly when the
supplied column equals 0 (the only falsy `int`); any non-zero column —
negative ones included — is stored unchanged. -/
theorem finding_column_default (source : String) (fn : Option String)
    (category message : String) (line col : Int) (el ec : Option Int)
    (idx : Int) (frag : Option String) :
    (col = 0 →
      (_finding source fn category message line col el ec idx frag).startColumn = 1) ∧
    (col ≠ 0 →
      (_finding source fn category message line col el ec idx frag).startColumn = col) := by
  constructor <;> intro h <;> simp [_finding, h]

/-- Witness for `finding_column_default` at columns 0 and -7. -/
theorem finding_column_default_witness :
    (_finding "x" none "SyntaxError" "m" 1 0 none none 1 none).startColumn = 1 ∧
    (_finding "x" none "SyntaxError" "m" 1 (-7) none none 1 none).startColumn = -7 :=
  ⟨(finding_column_default "x" none "SyntaxError" "m" 1 0 none none 1 none).1 rfl,
   (finding_column_default "x" none "SyntaxError" "m" 1 (-7) none none 1 none).2
     (by decide)⟩

/-! ### Claim C8: the caret rule -/

/-- Specification-side caret rule, written from the spec's words:
spaces up to `column - 1`, then `^` repeated `max(1, end - start)`
(with a missing or non-positive start treated as column 1, and a
missing end giving length 1). -/
def caretSpec (col end_col : Option Int) : String :=
  let start : Int :=
    match col with
    | none => 1
    | some v => if v ≤ 0 then 1 else v
  let len : Int :=
    match end_col with
    | none => 1
    | some e => max 1 (e - start)
  String.mk (List.replicate (start - 1).toNat ' ') ++
    String.mk (List.replicate len.toNat '^')

/-- C8: the source's `_make_caret` computes exactly the spec's caret
string for every pair of optional column values. -/
theorem make_caret_matches_spec (col end_col : Option Int) :
    _make_caret col end_col = caretSpec col end_col := by
  unfold _make_caret caretSpec
  cases col with
  | none =>
    cases end_col with
    | none => rfl
    | some e =>
      dsimp only
      have hl : (if e > (1 : Int) then e - 1 else 1) = max 1 (e - 1) := by
        by_cases hec : e > (1 : Int)
        · rw [if_pos hec, max_eq_right (show (1 : Int) ≤ e - 1 by omega)]
        · rw [if_neg hec, max_eq_left (show e - 1 ≤ (1 : Int) by omega)]
      rw [hl]
  | some v =>
    have h1 : (if v = 0 ∨ v < 1 then (1 : Int) else v) =
        (if v ≤ 0 then 1 else v) := by
      split_ifs <;> omega
    cases end_col with
    | none => dsimp only; rw [h1]
    | some e =>
      dsimp only
      rw [h1]
      generalize (if v ≤ 0 then (1 : Int) else v) = c
      have hl : (if e > c then e - c else 1) = max 1 (e - c) := by
        by_cases hec : e > c
        · rw [if_pos hec, max_eq_right (show (1 : Int) ≤ e - c by omega)]
        · rw [if_neg hec, max_eq_left (show e - c ≤ (1 : Int) by omega)]
      rw [hl]

/-! ### Claim C9: the Suggestion Classifier is first-match over ordered
rules -/

/-- First-match evaluation of an ordered rule list: the first rule whose
predicate accepts `(msg, snippet)` supplies the suggestion; with no
match the result is the empty string. -/
def firstMatch : List ((String → String → Bool) × String) → String →
    String → String
  | [], _, _ => ""
  | (p, advice) :: rest, msg, snippet =>
    if p msg snippet then advice else firstMatch rest msg snippet

/-- The classifier's rules in source order, each predicate written over
the lower-cased message and the snippet exactly as in `_suggest_fix`. -/
def suggestRules : List ((String → String → Bool) × String) := [
  (fun msg _ => pyIn "eol while scanning string literal" (pyLower msg) ||
      pyIn "unterminated string" (pyLower msg),
   "Close the string with matching quotes."),
  (fun _ snippet =>
      ["\x27", "\"", "\"\"\"", "\x27\x27\x27"].contains (pyStrip snippet),
   "You started a string but didn’t close it. Add the matching quote."),
  (fun msg _ => pyIn "inconsistent use of tabs and spaces" (pyLower msg),
   "Do not mix tabs and spaces. Use only spaces (recommended, 4 per indent)."),
  (fun msg _ => pyIn "indentationerror" (pyLower msg) ||
      pyStartswith (pyLower msg) "expected an indented block",
   "Fix indentation (indent the block consistently with spaces)."),
  (fun msg _ => pyIn "unexpected eof while parsing" (pyLower msg) ||
      pyIn "unexpected end of file" (pyLower msg),
   "Complete the unfinished block or expression."),
  (fun msg _ => pyIn "cannot assign to" (pyLower msg) &&
      pyIn "literal" (pyLower msg),
   "Left side of \x27=\x27 must be a variable; use \x27==\x27 for comparison if intended."),
  (fun msg _ => pyIn "duplicate argument" (pyLower msg) &&
      pyIn "function definition" (pyLower msg),
   "Each function parameter must have a unique name."),
  (fun msg _ => pyIn "\x27return\x27 outside function" (pyLower msg),
   "Move \x27return\x27 inside a function definition."),
  (fun msg _ => pyIn "\x27break\x27 outside loop" (pyLower msg) ||
      pyIn "\x27continue\x27 not properly in loop" (pyLower msg),
   "Use \x27break\x27 or \x27continue\x27 only inside a loop."),
  (fun msg _ => pyIn "f-string" (pyLower msg) && pyIn "unmatched" (pyLower msg),
   "Double braces \x27\x7b\x7b \x7d\x7d\x27 if you want literal \x27\x7b\x27 characters inside an f-string."),
  (fun msg _ => pyIn "invalid character" (pyLower msg),
   "Replace non-standard characters (like smart quotes or dashes) with plain ASCII ones."),
  (fun _ snippet => pyStrip snippet == ")",
   "This closing parenthesis has no matching opening \x27(\x27 before it."),
  (fun msg snippet => pyIn "invalid syntax" (pyLower msg) &&
      pyIn "(" snippet && !pyIn ")" snippet,
   "Check your parentheses. Make sure each \x27(\x27 has a matching \x27)\x27."),
  (fun msg snippet => pyIn "invalid syntax" (pyLower msg) &&
      pyIn "=" snippet && !pyIn "==" snippet &&
      (pyIn "if" snippet || pyIn "while" snippet),
   "Use \x27==\x27 for comparison inside conditions, not \x27=\x27."),
  (fun msg snippet => pyIn "expected \x27:\x27" (pyLower msg) ||
      pyIn "missing \x27:\x27" (pyLower msg) ||
      (pyIn "invalid syntax" (pyLower msg) &&
        blockHeaders.contains (firstTokenLower snippet)),
   "Add a colon (:) at the end of the statement header.")]

/-- C9: the classifier is exactly first-match evaluation of the ordered
rule list (empty string when no rule matches), and any message whose
lower-casing contains "unterminated string" receives the close-the-
string suggestion — rule one fires before the generic "invalid syntax"
rules lower in the list. -/
theorem suggest_fix_first_match :
    (∀ msg snippet, _suggest_fix msg snippet =
      firstMatch suggestRules msg snippet) ∧
    (∀ msg snippet, pyIn "unterminated string" (pyLower msg) = true →
      _suggest_fix msg snippet = "Close the string with matching quotes.") := by
  constructor
  · intro msg snippet
    rfl
  · intro msg snippet h
    simp only [_suggest_fix, h, Bool.or_true, if_true, ite_true]

/-- Witness for `suggest_fix_first_match` on a message that contains
both "unterminated string" and "invalid syntax". -/
theorem suggest_fix_first_match_witness :
    pyIn "unterminated string"
      (pyLower "Unterminated string literal: invalid syntax") = true ∧
    _suggest_fix "Unterminated string literal: invalid syntax" "x = \x27abc" =
      "Close the string with matching quotes." := by
  have h : pyIn "unterminated string"
      (pyLower "Unterminated string literal: invalid syntax") = true := by decide
  exact ⟨h, suggest_fix_first_match.2
    "Unterminated string literal: invalid syntax" "x = \x27abc" h⟩

/-! ### Claim C4: the aggregator does not gate on syntax findings -/

/-- C4 counterexample: even when the syntax Report carries a non-empty
findings list, the aggregator still invokes the security, style and
performance analyzers — `run_all_analyzers` contains no gate. -/
theorem aggregator_does_not_gate :
    ((run_all_analyzers (fun _ => c2demoReport) (fun _ => (0 : Nat))
        (fun _ => (0 : Nat)) (fun _ => (0 : Nat)) true
        "if True print(x)").syntax_report.findings ≠ []) ∧
    "security" ∈ (run_all_analyzers (fun _ => c2demoReport)
        (fun _ => (0 : Nat)) (fun _ => (0 : Nat)) (fun _ => (0 : Nat)) true
        "if True print(x)").calls ∧
    "style" ∈ (run_all_analyzers (fun _ => c2demoReport)
        (fun _ => (0 : Nat)) (fun _ => (0 : Nat)) (fun _ => (0 : Nat)) true
        "if True print(x)").calls ∧
    "performance" ∈ (run_all_analyzers (fun _ => c2demoReport)
        (fun _ => (0 : Nat)) (fun _ => (0 : Nat)) (fun _ => (0 : Nat)) true
        "if True print(x)").calls := by
  refine ⟨?_, ?_, ?_, ?_⟩ <;> simp [run_all_analyzers, c2demoReport]

/-- C4 amended: the aggregator invokes the syntax engine exactly once
and before every other analyzer, but runs the downstream analyzers
unconditionally — in fixed order syntax, security, style, then
performance when available — regardless of the syntax findings. -/
theorem aggregator_calls_in_order {α β γ : Type}
    (syntaxEngine : String → Report) (securityEngine : String → α)
    (styleEngine : String → β) (perfEngine : String → γ)
    (performanceAvailable : Bool) (source_code : String) :
    (run_all_analyzers syntaxEngine securityEngine styleEngine perfEngine
        performanceAvailable source_code).calls =
      ["syntax", "security", "style"] ++
        (if performanceAvailable then ["performance"] else []) ∧
    (run_all_analyzers syntaxEngine securityEngine styleEngine perfEngine
        performanceAvailable source_code).syntax_report =
      syntaxEngine source_code := by
  cases performanceAvailable <;> simp [run_all_analyzers]
